import Mathlib

/-!
Shallow embedding of the inquiry-email quoting and extraction engines
(`src/quoting.py`, `src/lightweight_offline/email_parser.py`,
`src/utils/email_parser_helpers.py`) together with theorems settling the
frozen claims about them.

Modelling conventions:
* Python dicts with a fixed key set become structures; optional top-level
  keys (the `DiscountRules` dict) become `Option` fields, and a `KeyError`
  raised by a `d["k"]` access becomes an `Except.error`.
* Monetary values (Python numbers) are modelled as rationals.
* The external fuzzy scorer (`thefuzz`), the SHA-256 hash and the wall
  clock are parameters of the embedding: they are third-party effects the
  repository only calls into.
* Quantities are `Option Nat`: the repository's quantity parser only ever
  produces a non-negative machine integer or `None`.
-/

/-- Model of Python `round(x, 2)` on exact rationals: round half to even. -/
def roundq2 (x : ℚ) : ℚ :=
  let y := x * 100
  let f : ℤ := Int.floor y
  let r := y - (f : ℚ)
  let n : ℤ :=
    if r < 1/2 then f
    else if 1/2 < r then f + 1
    else if f % 2 = 0 then f else f + 1
  (n : ℚ) / 100

/-- One entry of the `bulk_discount` list in the discount rules. -/
structure BulkRule where
  min_quantity : Nat
  discount_percent : ℚ
deriving DecidableEq

/-- Value side of one catalog (price list) entry. -/
structure ProductInfo where
  price : ℚ
  category : String
deriving DecidableEq

/-- The `discount_rules` dict; each top-level key may be absent. -/
structure DiscountRules where
  tax_rate_percent : Option ℚ
  bulk_discount : Option (List BulkRule)
  category_discount : Option (List (String × ℚ))
deriving DecidableEq

/-- Python truthiness of the rules dict: empty iff it has no keys. -/
def DiscountRules.isEmptyDict (r : DiscountRules) : Bool :=
  r.tax_rate_percent.isNone && r.bulk_discount.isNone && r.category_discount.isNone

/-- The `confidence` sub-dict of an extracted item. -/
structure Confidence where
  product : ℚ
  quantity : ℚ
deriving DecidableEq

/-- One extracted item of a parsed event. -/
structure ExtractedItem where
  product_name : Option String
  mentioned_as : String
  quantity : Option Nat
  confidence : Confidence
deriving DecidableEq

/-- A gap record; the `type` field is the tag string used by the code. -/
structure Gap where
  type : String
  details : String
deriving DecidableEq

/-- Sender info produced by `parse_sender`. -/
structure Sender where
  name : Option String
  email : String
deriving DecidableEq

/-- The structured event produced by `parse_email`. -/
structure ParsedEvent where
  email_id : String
  sender : Sender
  subject : String
  received_at : String
  extracted_items : List ExtractedItem
  currency_mentioned : Option String
  gaps_identified : List Gap
deriving DecidableEq

/-- One calculated line item of a quote. -/
structure LineItem where
  product_name : String
  quantity : Nat
  unit_price : ℚ
  subtotal : ℚ
  total_discount_applied : ℚ
  final_price : ℚ
deriving DecidableEq

/-- The quote summary dict. -/
structure QuoteSummary where
  grand_subtotal : ℚ
  total_discount : ℚ
  net_total_before_tax : ℚ
  tax_amount : ℚ
  grand_total : ℚ
deriving DecidableEq

/-- A quote. `pending_reason`/`gaps` are present only on the pending path,
`summary` only on the success path (the pending path stores `{}`). -/
structure Quote where
  quote_id : String
  status : String
  pending_reason : Option String
  gaps : Option (List Gap)
  line_items : List LineItem
  summary : Option QuoteSummary
deriving DecidableEq

/-- State of a constructed `QuoteGenerator`. -/
structure QuoteGenerator where
  price_list : List (String × ProductInfo)
  discount_rules : DiscountRules
  tax_rate : ℚ
deriving DecidableEq

/-- `QuoteGenerator.__init__`: rejects empty inputs, precomputes the tax rate. -/
def quoteGeneratorInit (price_list : List (String × ProductInfo))
    (discount_rules : DiscountRules) : Except String QuoteGenerator :=
  if price_list.isEmpty || discount_rules.isEmptyDict then
    .error "Price list and discount rules cannot be empty."
  else
    .ok { price_list := price_list, discount_rules := discount_rules,
          tax_rate := discount_rules.tax_rate_percent.getD 0 / 100 }

/-- Python truthiness of `item.get("product_name")`: `None` and `""` are falsy. -/
def truthyName (o : Option String) : Bool :=
  match o with
  | none => false
  | some s => !(s == "")

/-- Python truthiness of `item.get("quantity")`: `None` and `0` are falsy. -/
def truthyQuantity (o : Option Nat) : Bool :=
  match o with
  | none => false
  | some n => n != 0

/-- `QuoteGenerator._is_quotable`. -/
def is_quotable (items : List ExtractedItem) : Bool :=
  !items.isEmpty &&
    items.all (fun it => truthyName it.product_name && truthyQuantity it.quantity)

/-- Sort key order used on the bulk rules: `min_quantity` descending.
A stable sort under this relation models Python's
`sorted(key=min_quantity, reverse=True)`. -/
def bulkDescOrder (a b : BulkRule) : Prop :=
  b.min_quantity ≤ a.min_quantity

instance : DecidableRel bulkDescOrder :=
  fun a b => Nat.decLe b.min_quantity a.min_quantity

instance : IsTotal BulkRule bulkDescOrder :=
  ⟨fun a b => Nat.le_total b.min_quantity a.min_quantity⟩

instance : IsTrans BulkRule bulkDescOrder :=
  ⟨fun _ _ _ hab hbc => le_trans hbc hab⟩

/-- Body of `QuoteGenerator._get_bulk_discount` once the `bulk_discount`
list has been read: sort descending by `min_quantity`, take the first rule
with `min_quantity ≤ quantity`, default 0. -/
def get_bulk_discount_from (rules : List BulkRule) (quantity : Nat) : ℚ :=
  match (List.insertionSort bulkDescOrder rules).find?
      (fun r => decide (r.min_quantity ≤ quantity)) with
  | some r => r.discount_percent
  | none => 0

/-- `QuoteGenerator._get_bulk_discount`; reading a missing `bulk_discount`
key raises `KeyError`. -/
def QuoteGenerator.get_bulk_discount (g : QuoteGenerator) (quantity : Nat) :
    Except String ℚ :=
  match g.discount_rules.bulk_discount with
  | none => .error "KeyError: bulk_discount"
  | some rules => .ok (get_bulk_discount_from rules quantity)

/-- `QuoteGenerator._calculate_line_items`. An item whose product name is
missing from the price list is skipped; a `None` quantity on a priced item
would raise a `TypeError` in the arithmetic; reading the `bulk_discount`
or `category_discount` keys raises `KeyError` when absent. -/
def QuoteGenerator.calculate_line_items (g : QuoteGenerator) :
    List ExtractedItem → Except String (List LineItem)
  | [] => .ok []
  | item :: rest =>
    match item.product_name with
    | none => g.calculate_line_items rest
    | some pn =>
      match g.price_list.lookup pn with
      | none => g.calculate_line_items rest
      | some info =>
        match item.quantity with
        | none => .error "TypeError: unsupported operand type for unit_price * quantity"
        | some quantity =>
          match g.discount_rules.bulk_discount with
          | none => .error "KeyError: bulk_discount"
          | some brules =>
            match g.discount_rules.category_discount with
            | none => .error "KeyError: category_discount"
            | some crules =>
              let subtotal := info.price * (quantity : ℚ)
              let bulk_discount_percent := get_bulk_discount_from brules quantity
              let category_discount_percent := (crules.lookup info.category).getD 0
              let bulk_discount_amount := subtotal * (bulk_discount_percent / 100)
              let post_bulk_total := subtotal - bulk_discount_amount
              let category_discount_amount := post_bulk_total * (category_discount_percent / 100)
              let total_discount := bulk_discount_amount + category_discount_amount
              let final_price := subtotal - total_discount
              (g.calculate_line_items rest).map (fun tail =>
                { product_name := pn, quantity := quantity, unit_price := info.price,
                  subtotal := subtotal, total_discount_applied := total_discount,
                  final_price := final_price } :: tail)

/-- `QuoteGenerator._calculate_summary`. -/
def QuoteGenerator.calculate_summary (g : QuoteGenerator)
    (line_items : List LineItem) : QuoteSummary :=
  let grand_subtotal := (line_items.map LineItem.subtotal).sum
  let total_discount := (line_items.map LineItem.total_discount_applied).sum
  let net_total := grand_subtotal - total_discount
  let tax_amount := net_total * g.tax_rate
  let grand_total := net_total + tax_amount
  { grand_subtotal := roundq2 grand_subtotal
    total_discount := roundq2 total_discount
    net_total_before_tax := roundq2 net_total
    tax_amount := roundq2 tax_amount
    grand_total := roundq2 grand_total }

/-! ### Character / regex helpers for the extractor

ASCII models of the `re` constructs the parser uses: `\s`, `\w`, `\b`,
case-insensitive literal alternatives, and standalone digit runs. -/

/-- Python `\s` (ASCII range). -/
def isPySpace (c : Char) : Bool :=
  c == ' ' || c == '\t' || c == '\n' || c == '\r' || c == '\x0b' || c == '\x0c'

/-- Python `\w` (ASCII range). -/
def isWordChar (c : Char) : Bool :=
  c.isAlphanum || c == '_'

/-- Case-insensitive literal prefix match. -/
def matchesAtCI : List Char → List Char → Bool
  | [], _ => true
  | _ :: _, [] => false
  | p :: ps, c :: cs => (p.toLower == c.toLower) && matchesAtCI ps cs

/-- Case-sensitive literal prefix match. -/
def matchesAtCS : List Char → List Char → Bool
  | [], _ => true
  | _ :: _, [] => false
  | p :: ps, c :: cs => (p == c) && matchesAtCS ps cs

/-- `\b` before a word-character pattern: previous char absent or non-word. -/
def prevBoundaryOk (prev : Option Char) : Bool :=
  match prev with
  | none => true
  | some c => !isWordChar c

/-- `\b` after a word-character pattern: next char absent or non-word. -/
def nextBoundaryOk (rest : List Char) : Bool :=
  match rest with
  | [] => true
  | c :: _ => !isWordChar c

/-- Scan for a whole-word, case-insensitive occurrence of `pat`
(`re.search(r"\b" + re.escape(pat) + r"\b", text, re.IGNORECASE)`). -/
def hasWordCIAux (pat : List Char) : Option Char → List Char → Bool
  | _, [] => false
  | prev, c :: cs =>
    (prevBoundaryOk prev && matchesAtCI pat (c :: cs)
        && nextBoundaryOk ((c :: cs).drop pat.length))
      || hasWordCIAux pat (some c) cs

/-- Whole-word case-insensitive containment on strings. -/
def hasWordCI (pat : String) (text : String) : Bool :=
  hasWordCIAux pat.data none text.data

/-- Decimal value of a digit run. -/
def digitsToNat (ds : List Char) : Nat :=
  ds.foldl (fun acc c => acc * 10 + (c.toNat - 48)) 0

/-- First match of `re.search(r"\b\d+\b", text)`: the first maximal run of
digits delimited by word boundaries on both sides. -/
def firstStandaloneNatAux : Option Char → List Char → Option Nat
  | _, [] => none
  | prev, c :: cs =>
    if prevBoundaryOk prev && c.isDigit then
      let digits := (c :: cs).takeWhile Char.isDigit
      let rest := (c :: cs).dropWhile Char.isDigit
      if nextBoundaryOk rest then some (digitsToNat digits)
      else firstStandaloneNatAux (some c) cs
    else firstStandaloneNatAux (some c) cs

/-- String-level wrapper for the standalone-digit search. -/
def firstStandaloneNat (text : String) : Option Nat :=
  firstStandaloneNatAux none text.data

/-! ### `parse_quantity` (`src/utils/email_parser_helpers.py`) -/

/-- The `word_to_num` dict, in source (insertion) order. -/
def word_to_num : List (String × Nat) :=
  [("one", 1), ("two", 2), ("three", 3), ("four", 4), ("five", 5), ("six", 6),
   ("seven", 7), ("eight", 8), ("nine", 9), ("ten", 10),
   ("a dozen", 12), ("dozen", 12), ("a couple", 2)]

/-- Sort order for the number-word check: phrase length descending
(`sorted(word_to_num.items(), key=len, reverse=True)`, stable). -/
def wordLenOrder (a b : String × Nat) : Prop :=
  b.1.length ≤ a.1.length

instance : DecidableRel wordLenOrder :=
  fun a b => Nat.decLe b.1.length a.1.length

/-- The number-word checking order actually used by `parse_quantity`. -/
def sortedNumberWords : List (String × Nat) :=
  List.insertionSort wordLenOrder word_to_num

/-- `parse_quantity`: first whole-word number-word match in length-descending
order wins; otherwise the first standalone digit run; otherwise `None`. -/
def parse_quantity (text : String) : Option Nat :=
  match sortedNumberWords.find? (fun p => hasWordCI p.1 text) with
  | some p => some p.2
  | none => firstStandaloneNat text

/-! ### Line and string utilities (`clean_email_body` and friends) -/

/-- Python `str.splitlines` for the separators `\r\n`, `\r`, `\n`. -/
def splitlinesGo : List Char → List Char → List (List Char)
  | [], cur => if cur.isEmpty then [] else [cur.reverse]
  | '\r' :: '\n' :: rest, cur => cur.reverse :: splitlinesGo rest []
  | '\r' :: rest, cur => cur.reverse :: splitlinesGo rest []
  | '\n' :: rest, cur => cur.reverse :: splitlinesGo rest []
  | c :: rest, cur => splitlinesGo rest (c :: cur)

/-- Python `str.splitlines`. -/
def splitlinesPy (s : List Char) : List (List Char) :=
  splitlinesGo s []

/-- Python `str.strip()` (whitespace at both ends). -/
def pyStrip (l : List Char) : List Char :=
  ((l.dropWhile isPySpace).reverse.dropWhile isPySpace).reverse

/-- Membership in the `", -"` strip set of the signature scan. -/
def isNoise (c : Char) : Bool :=
  c == ',' || c == '-' || c == ' '

/-- Python `str.strip(",- ")`. -/
def stripNoise (l : List Char) : List Char :=
  ((l.dropWhile isNoise).reverse.dropWhile isNoise).reverse

/-- `"\n".join` on char-list lines. -/
def joinLines (lines : List (List Char)) : List Char :=
  List.intercalate ['\n'] lines

/-- The sign-off alternatives, in the source pattern's alternation order. -/
def signOffWords : List String :=
  ["Best regards", "Sincerely", "Thank you", "Thanks", "Cheers", "Regards", "Best"]

/-- Try the sign-off alternatives at one position (leading and trailing `\b`,
case-insensitive); returns the matched length. -/
def signOffAt (prev : Option Char) (s : List Char) : Option Nat :=
  signOffWords.findSome? (fun w =>
    if prevBoundaryOk prev && matchesAtCI w.data s
        && nextBoundaryOk (s.drop w.data.length) then
      some w.data.length
    else none)

/-- Position of the first sign-off keyword: returns the `(start, stop)`
character span of the matched keyword. -/
def findSignOffAux : Option Char → List Char → Nat → Option (Nat × Nat)
  | _, [], _ => none
  | prev, c :: cs, i =>
    match signOffAt prev (c :: cs) with
    | some len => some (i, i + len)
    | none => findSignOffAux (some c) cs (i + 1)

/-- Does the stripped line start with `>` (quoted-reply marker)? -/
def startsWithGt (l : List Char) : Bool :=
  match pyStrip l with
  | '>' :: _ => true
  | _ => false

/-- Does the stripped line match `^(Dear|Hi|Hello)\b` (case-insensitive)? -/
def isSalutationLine (l : List Char) : Bool :=
  let sl := pyStrip l
  ["Dear", "Hi", "Hello"].any (fun w =>
    matchesAtCI w.data sl && nextBoundaryOk (sl.drop w.data.length))

/-- Does the stripped line match `^(From|To|Subject|Date|Sent):`
(case-insensitive)? -/
def isHeaderLine (l : List Char) : Bool :=
  let sl := pyStrip l
  ["From", "To", "Subject", "Date", "Sent"].any (fun w =>
    matchesAtCI (w.data ++ [':']) sl)

/-- Index just past the first salutation line (`start_index` in the source),
`none` when no line matches. -/
def salutationIndex : List (List Char) → Nat → Option Nat
  | [], _ => none
  | l :: ls, i => if isSalutationLine l then some (i + 1) else salutationIndex ls (i + 1)

/-- `clean_email_body`: drop quoted replies, cut at the first sign-off,
drop everything through the first salutation line, drop residual header
lines, strip. -/
def clean_email_body (text : String) : String :=
  let lines1 := (splitlinesPy text.data).filter (fun l => !startsWithGt l)
  let text2 := joinLines lines1
  let content :=
    match findSignOffAux none text2 0 with
    | some (s, _) => text2.take s
    | none => text2
  let content_lines := splitlinesPy content
  let start_index := (salutationIndex content_lines 0).getD 0
  let core := joinLines (content_lines.drop start_index)
  let lines2 := (splitlinesPy core).filter (fun l => !isHeaderLine l)
  ⟨pyStrip (joinLines lines2)⟩

/-! ### `EmailParser` (`src/lightweight_offline/email_parser.py`) -/

/-- `EmailParser.__init__`: rejects an empty price list, stores the product
names (the dict keys, in order). -/
def emailParserInit (price_list : List (String × ProductInfo)) :
    Except String (List String) :=
  if price_list.isEmpty then .error "Price list cannot be empty."
  else .ok (price_list.map Prod.fst)

/-- Find the text following the first occurrence of `pat` at a line start
(`re.search` with `re.MULTILINE` and a `^`-anchored, case-sensitive literal). -/
def findAtLineStart (pat : List Char) : Bool → List Char → Option (List Char)
  | _, [] => none
  | atStart, c :: cs =>
    if atStart && matchesAtCS pat (c :: cs) then some ((c :: cs).drop pat.length)
    else findAtLineStart pat (c == '\n') cs

/-- `\s*(.*)` applied after `Subject:`: skip whitespace (which may cross
newlines), then take the rest of that line. -/
def afterSubjectText (s : List Char) : List Char :=
  (s.dropWhile isPySpace).takeWhile (fun c => c != '\n')

/-- `EmailParser.parse_subject`. -/
def parse_subject (content : String) : String :=
  match findAtLineStart "Subject:".data true content.data with
  | some rest => ⟨pyStrip (afterSubjectText rest)⟩
  | none => "No Subject"

/-- Result of the `From:` header regex: either the `Name <email>` branch
or the bare-email branch. -/
inductive FromMatch where
  | nameEmail (name : String) (email : String)
  | emailOnly (email : String)
deriving DecidableEq

/-- The `\s*(.*?)\s*<([^>]+)>` part of the `From:` header regex, applied to
the rest of the header line: find the first `<` followed by a non-empty
`>`-free run and a `>`; the name is the (stripped) text before that `<`. -/
def fromNameEmailGo : List Char → List Char → Option (String × String)
  | _, [] => none
  | acc, c :: cs =>
    if c == '<' then
      match cs.dropWhile (fun d => d != '>') with
      | '>' :: _ =>
        let inside := cs.takeWhile (fun d => d != '>')
        if inside.isEmpty then fromNameEmailGo (c :: acc) cs
        else some (⟨pyStrip acc.reverse⟩, ⟨pyStrip inside⟩)
      | _ => none
    else fromNameEmailGo (c :: acc) cs

/-- Does the list contain a `.` followed by at least one more character?
Applied to the tail of the post-`@` run, this decides whether
`[^\s@]+\.[^\s@]+` can match the run. -/
def dotWithTail : List Char → Bool
  | [] => false
  | '.' :: _ :: _ => true
  | _ :: rest => dotWithTail rest

/-- The `([^\s@]+@[^\s@]+\.[^\s@]+)` branch of the `From:` header regex,
applied to the rest of the header line. -/
def fromBareEmail (rl : List Char) : Option String :=
  let t := rl.dropWhile isPySpace
  let run1 := t.takeWhile (fun c => !isPySpace c && c != '@')
  match run1, t.drop run1.length with
  | [], _ => none
  | _, '@' :: t3 =>
    let run2 := t3.takeWhile (fun c => !isPySpace c && c != '@')
    match run2 with
    | [] => none
    | _ :: rest2 => if dotWithTail rest2 then some ⟨run1 ++ '@' :: run2⟩ else none
  | _, _ => none

/-- Scan for the first line-start `From:` whose rest-of-line matches one of
the two header branches (branch order as in the source pattern). -/
def fromHeaderAux : Bool → List Char → Option FromMatch
  | _, [] => none
  | atStart, c :: cs =>
    if atStart && matchesAtCS "From:".data (c :: cs) then
      let rl := ((c :: cs).drop 5).takeWhile (fun d => d != '\n')
      match fromNameEmailGo [] rl with
      | some (n, e) => some (.nameEmail n e)
      | none =>
        match fromBareEmail rl with
        | some e => some (.emailOnly e)
        | none => fromHeaderAux (c == '\n') cs
    else fromHeaderAux (c == '\n') cs

/-- The fixed fallback sender address. -/
def defaultEmail : String := "unknown@example.com"

/-- The signature-line validity check of `parse_sender` (after the
`strip(",- ")`): more than one character, at most two words, none of
`@`, `<`, `>`. -/
def sigQualifies (potential : List Char) : Bool :=
  potential.length > 1
    && (potential.splitOnP isPySpace).countP (fun w => !w.isEmpty) ≤ 2
    && !potential.any (fun c => c == '@' || c == '<' || c == '>')

/-- The non-empty stripped lines after the first sign-off keyword. -/
def sigLinesOf (content : String) : List (List Char) :=
  match findSignOffAux none content.data 0 with
  | none => []
  | some (_, stop) =>
    ((splitlinesPy (content.data.drop stop)).map pyStrip).filter (fun l => !l.isEmpty)

/-- The overwriting loop over candidate signature lines: each qualifying
line replaces the name found so far. -/
def signatureScan (lines : List (List Char)) : Option String :=
  lines.foldl (fun acc l =>
    let potential := stripNoise l
    if sigQualifies potential then some ⟨potential⟩ else acc) none

/-- The signature-block name search of `parse_sender`. -/
def signatureName (content : String) : Option String :=
  signatureScan (sigLinesOf content)

/-- Does the `From:` header produce a truthy name? -/
def headerGivesName (content : String) : Bool :=
  match fromHeaderAux true content.data with
  | some (.nameEmail n _) => n != ""
  | _ => false

/-- `EmailParser.parse_sender`. -/
def parse_sender (content : String) : Sender :=
  let base : Sender := { name := none, email := defaultEmail }
  let afterHeader : Sender :=
    match fromHeaderAux true content.data with
    | some (.nameEmail n e) =>
      if n != "" then { name := some n, email := e } else base
    | some (.emailOnly e) => { name := none, email := e }
    | none => base
  match afterHeader.name with
  | some _ => afterHeader
  | none => { afterHeader with name := signatureName content }

/-- A body token (`re.finditer(r"\S+", body)`): the character span
`[start, stop)` of one maximal non-whitespace run. -/
structure Tok where
  start : Nat
  stop : Nat
deriving DecidableEq

/-- Tokenizer worker: `i` is the current offset, the third argument the
start offset of the token in progress. -/
def tokenizeGo : List Char → Nat → Option Nat → List Tok
  | [], _, none => []
  | [], i, some s => [⟨s, i⟩]
  | c :: cs, i, none =>
    if isPySpace c then tokenizeGo cs (i + 1) none else tokenizeGo cs (i + 1) (some i)
  | c :: cs, i, some s =>
    if isPySpace c then ⟨s, i⟩ :: tokenizeGo cs (i + 1) none else tokenizeGo cs (i + 1) (some s)

/-- All `\S+` tokens of a string with their character offsets. -/
def tokenize (body : String) : List Tok :=
  tokenizeGo body.data 0 none

/-- `body[start:stop]`. -/
def sliceStr (body : String) (start stop : Nat) : String :=
  ⟨(body.data.drop start).take (stop - start)⟩

/-- An n-gram candidate: the original substring spanned by `n` consecutive
tokens, with its character span. -/
structure Ngram where
  text : String
  span : Nat × Nat
deriving DecidableEq

/-- The n-gram generation loop of `extract_items` (outer loop over the
window length `n = 1..max_n`, inner loop over the start token). -/
def ngramsOf (body : String) (max_n : Nat) : List Ngram :=
  let toks := tokenize body
  ((List.range' 1 max_n).map (fun n =>
    if n ≤ toks.length then
      (List.range (toks.length - n + 1)).map (fun i =>
        let a := toks.getD i ⟨0, 0⟩
        let b := toks.getD (i + n - 1) ⟨0, 0⟩
        { text := sliceStr body a.start b.stop, span := (a.start, b.stop) })
    else [])).flatten

/-- Maximum word count over the product names (`max(len(p.split()) ...)`;
the constructor guarantees the list is non-empty). -/
def max_words (names : List String) : Nat :=
  names.foldl (fun acc p => max acc (tokenize p).length) 0

/-- `thefuzz.process.extractOne` against a list of choices, abstracted over
the scoring function: the first choice attaining the maximal score. -/
def extractOne (scorer : String → String → Nat) (query : String) :
    List String → Option (String × Nat)
  | [] => none
  | c :: cs =>
    some (cs.foldl (fun best x =>
      if scorer query x > best.2 then (x, scorer query x) else best)
      (c, scorer query c))

/-- A scored n-gram kept by the medium-confidence filter. -/
structure Candidate where
  text : String
  span : Nat × Nat
  product : String
  score : Nat
  length : Nat
deriving DecidableEq

/-- The scoring loop of `extract_items`: skip n-grams shorter than 4
characters, keep those whose best fuzzy score is ≥ 75. -/
def scoredMatches (scorer : String → String → Nat) (names : List String)
    (ngrams : List Ngram) : List Candidate :=
  ngrams.filterMap (fun ng =>
    if ng.text.length < 4 then none
    else
      match extractOne scorer ng.text names with
      | none => none
      | some (m, score) =>
        if 75 ≤ score then
          some { text := ng.text, span := ng.span, product := m,
                 score := score, length := ng.text.length }
        else none)

/-- Sort order of the overlap resolution: `(score, length)` descending,
ties by original position (stable sort). -/
def candOrder (a b : Candidate) : Prop :=
  b.score < a.score ∨ (b.score = a.score ∧ b.length ≤ a.length)

instance : DecidableRel candOrder := fun a b =>
  inferInstanceAs (Decidable (b.score < a.score ∨ (b.score = a.score ∧ b.length ≤ a.length)))

/-- The character positions covered by a span. -/
def spanIndices (sp : Nat × Nat) : List Nat :=
  List.range' sp.1 (sp.2 - sp.1)

/-- Is any position of the span already in the used-index set? -/
def overlapsUsed (sp : Nat × Nat) (used : List Nat) : Bool :=
  (spanIndices sp).any (fun i => used.contains i)

/-- The greedy acceptance loop: accept a candidate iff none of its covered
positions is claimed, then claim its whole span. -/
def resolveGo : List Candidate → List Candidate → List Nat → List Candidate
  | [], acc, _ => acc.reverse
  | c :: cs, acc, used =>
    if overlapsUsed c.span used then resolveGo cs acc used
    else resolveGo cs (c :: acc) (used ++ spanIndices c.span)

/-- Overlap resolution of `extract_items`: stable sort by `(score, length)`
descending, then greedy acceptance. -/
def resolveOverlaps (cands : List Candidate) : List Candidate :=
  resolveGo (List.insertionSort candOrder cands) [] []

/-- `round(score / 100, 2)` on an integer percent score. -/
def confidenceRound (score : Nat) : ℚ :=
  roundq2 ((score : ℚ) / 100)

/-- The per-match item/gap construction of `extract_items` (steps 4 and 5):
quantity search in the 50 characters before the match, then the
high-confidence / ambiguous classification. -/
def buildItem (body : String) (c : Candidate) : ExtractedItem × List Gap :=
  let search_window := sliceStr body (c.span.1 - 50) c.span.1
  let quantity := parse_quantity search_window
  let qconf : ℚ := if truthyQuantity quantity then 1 else 0
  if 90 ≤ c.score then
    ({ product_name := some c.product, mentioned_as := c.text, quantity := quantity,
       confidence := { product := confidenceRound c.score, quantity := qconf } },
     if truthyQuantity quantity then []
     else [{ type := "MISSING_QUANTITY",
             details := "Product \x27" ++ c.product
               ++ "\x27 was identified, but no quantity was found nearby." }])
  else
    ({ product_name := none, mentioned_as := c.text, quantity := quantity,
       confidence := { product := confidenceRound c.score, quantity := qconf } },
     [{ type := "AMBIGUOUS_PRODUCT",
        details := "Request \x27" ++ c.text ++ "\x27 is ambiguous. Best guess: \x27"
          ++ c.product ++ "\x27 (Score: " ++ toString c.score ++ ")." }])

/-- The generic fallback gap. -/
def unknownProductGap : Gap :=
  { type := "UNKNOWN_PRODUCT", details := "No product was matched to any known product." }

/-- `EmailParser.extract_items`, parameterised over the fuzzy scorer. -/
def extract_items (scorer : String → String → Nat) (names : List String)
    (body : String) : List ExtractedItem × List Gap :=
  let max_n := max_words names + 1
  let ngrams := ngramsOf body max_n
  let scored := scoredMatches scorer names ngrams
  let final_matches := resolveOverlaps scored
  let built := final_matches.map (buildItem body)
  let items := built.map Prod.fst
  let gaps := (built.map Prod.snd).flatten
  if items.isEmpty && gaps.isEmpty then (items, [unknownProductGap])
  else (items, gaps)

/-- Index (relative) of the last newline of a char list. -/
def lastNewlineIdx : List Char → Option Nat
  | [] => none
  | c :: cs =>
    match lastNewlineIdx cs with
    | some j => some (j + 1)
    | none => if c == '\n' then some 0 else none

/-- First match of `re.split(r"\n\s*\n", content, 1)`: a newline, a greedy
whitespace run, backtracked to its last contained newline; returns the text
after the separator. -/
def blankSepSearch : List Char → Option (List Char)
  | [] => none
  | '\n' :: rest =>
    (match lastNewlineIdx (rest.takeWhile isPySpace) with
     | some j => some (rest.drop (j + 1))
     | none => blankSepSearch rest)
  | _ :: rest => blankSepSearch rest

/-- `re.split(r"\n\s*\n", email_content, 1)[-1]`. -/
def bodyAfterHeaders (content : String) : String :=
  match blankSepSearch content.data with
  | some rest => ⟨rest⟩
  | none => content

/-- `EmailParser.parse_email`, parameterised over the fuzzy scorer, the
content hash (`generate_email_id`, an external SHA-256) and the clock. -/
def parse_email (names : List String) (scorer : String → String → Nat)
    (hash : String → String) (now : String) (email_content : String) : ParsedEvent :=
  let email_id := hash email_content
  let sender := parse_sender email_content
  let subject := parse_subject email_content
  let body_content := bodyAfterHeaders email_content
  let cleaned_body := clean_email_body body_content
  let pair := extract_items scorer names cleaned_body
  { email_id := email_id, sender := sender, subject := subject, received_at := now,
    extracted_items := pair.1, currency_mentioned := none,
    gaps_identified := pair.2 }

/-- The fixed pending reason string. -/
def pendingReasonText : String :=
  "One or more items could not be identified or are missing quantities."

/-- `QuoteGenerator.generate_quote`. -/
def QuoteGenerator.generate_quote (g : QuoteGenerator) (parsed_event : ParsedEvent) :
    Except String Quote :=
  let email_id := parsed_event.email_id
  let gaps := parsed_event.gaps_identified
  if !gaps.isEmpty || !is_quotable parsed_event.extracted_items then
    .ok { quote_id := email_id, status := "pending",
          pending_reason := some pendingReasonText,
          gaps := some gaps, line_items := [], summary := none }
  else
    (g.calculate_line_items parsed_event.extracted_items).map (fun line_items =>
      { quote_id := email_id, status := "success", pending_reason := none,
        gaps := none, line_items := line_items,
        summary := some (g.calculate_summary line_items) })

/-! ### The claim's spec-side gate condition -/

/-- Modelled from the spec's words (the quotability gate of §4.2): the
event has a gap, or no items, or some item lacks a non-null product name
or a positive quantity.  Compared against the code's gate below. -/
def gate_violation (e : ParsedEvent) : Prop :=
  e.gaps_identified ≠ [] ∨ e.extracted_items = [] ∨
    ∃ it ∈ e.extracted_items,
      it.product_name = none ∨ ¬∃ n, it.quantity = some n ∧ 0 < n

/-! ### Concrete fixtures used by witnesses and counterexamples -/

/-- Exact-match scorer used to instantiate the abstract fuzzy scorer. -/
def scorerEq : String → String → Nat :=
  fun a b => if a == b then 100 else 0

/-- The spec's end-to-end discount rules. -/
def rulesEx : DiscountRules :=
  { tax_rate_percent := some 10, bulk_discount := some [⟨5, 10⟩],
    category_discount := some [("laptop", 5)] }

/-- The spec's end-to-end catalog. -/
def plEx : List (String × ProductInfo) :=
  [("ThinkPad X1", ⟨1000, "laptop"⟩)]

/-- The generator built from `plEx` and `rulesEx`. -/
def gEx : QuoteGenerator :=
  { price_list := plEx, discount_rules := rulesEx, tax_rate := 10 / 100 }

/-- A fully resolved extracted item for the end-to-end scenario. -/
def itemEx : ExtractedItem :=
  { product_name := some "ThinkPad X1", mentioned_as := "ThinkPad X1",
    quantity := some 5, confidence := ⟨1, 1⟩ }

/-- A gap-free parsed event holding `itemEx`. -/
def evEx : ParsedEvent :=
  { email_id := "id1", sender := ⟨none, defaultEmail⟩, subject := "s",
    received_at := "t", extracted_items := [itemEx], currency_mentioned := none,
    gaps_identified := [] }

/-- `evEx` with a different subject and timestamp (fields the quote
calculator must ignore). -/
def evEx2 : ParsedEvent :=
  { email_id := "id1", sender := ⟨some "J", "j@x.com"⟩, subject := "other",
    received_at := "t2", extracted_items := [itemEx], currency_mentioned := none,
    gaps_identified := [] }

/-- Non-empty discount rules whose `bulk_discount` top-level key is absent. -/
def rulesNoBulk : DiscountRules :=
  { tax_rate_percent := some 10, bulk_discount := none,
    category_discount := some [("laptop", 5)] }

/-- The generator state `quoteGeneratorInit plEx rulesNoBulk` constructs. -/
def gNoBulk : QuoteGenerator :=
  { price_list := plEx, discount_rules := rulesNoBulk, tax_rate := 10 / 100 }

/-- An event with one unresolved gap and no items. -/
def evGaps : ParsedEvent :=
  { email_id := "id2", sender := ⟨none, defaultEmail⟩, subject := "s",
    received_at := "t", extracted_items := [], currency_mentioned := none,
    gaps_identified := [⟨"UNKNOWN_PRODUCT", "No product was matched to any known product."⟩] }

/-- Two candidates overlap when some character position lies in both spans
(the condition the greedy loop tests through its used-index set). -/
def overlapProp (a b : Candidate) : Prop :=
  ∃ i, i ∈ spanIndices a.span ∧ i ∈ spanIndices b.span

deriving instance DecidableEq for Except

/-- One candidate signature line's contribution: the trimmed line when it
qualifies, `none` otherwise. -/
def sigCandidate (l : List Char) : Option String :=
  let potential := stripNoise l
  if sigQualifies potential then some ⟨potential⟩ else none

/-- A scorer that matches nothing (worst case for the extractor). -/
def scorer0 : String → String → Nat :=
  fun _ _ => 0

/-- Signature content with two qualifying lines after the sign-off. -/
def content9 : String :=
  "Hello\nplease\nThanks,\nJohn Doe\nJane Roe\n"

/-- The item `extract_items` produces for the body `"0 widgets"` with an
exact-match scorer and the catalog key `widgets`. -/
def item10 : ExtractedItem :=
  { product_name := some "widgets", mentioned_as := "widgets", quantity := some 0,
    confidence := { product := confidenceRound 100, quantity := 0 } }

/-- The missing-quantity gap accompanying `item10`. -/
def gap10 : Gap :=
  { type := "MISSING_QUANTITY",
    details := "Product \x27widgets\x27 was identified, but no quantity was found nearby." }

/-- The parsed event carrying `item10` and `gap10`. -/
def ev10 : ParsedEvent :=
  { email_id := "id10", sender := ⟨none, defaultEmail⟩, subject := "s",
    received_at := "t", extracted_items := [item10], currency_mentioned := none,
    gaps_identified := [gap10] }

/-- The line item the end-to-end fixture produces (fields spelled as the
exact arithmetic `_calculate_line_items` performs; they evaluate to
subtotal 5000, discount 725, final price 4275). -/
def liEx5 : LineItem :=
  { product_name := "ThinkPad X1", quantity := 5, unit_price := 1000,
    subtotal := (1000 : ℚ) * ((5 : ℕ) : ℚ),
    total_discount_applied :=
      (1000 : ℚ) * ((5 : ℕ) : ℚ) * (get_bulk_discount_from [⟨5, 10⟩] 5 / 100) +
        ((1000 : ℚ) * ((5 : ℕ) : ℚ) -
            (1000 : ℚ) * ((5 : ℕ) : ℚ) * (get_bulk_discount_from [⟨5, 10⟩] 5 / 100)) *
          ((List.lookup "laptop" [("laptop", (5 : ℚ))]).getD 0 / 100),
    final_price :=
      (1000 : ℚ) * ((5 : ℕ) : ℚ) -
        ((1000 : ℚ) * ((5 : ℕ) : ℚ) * (get_bulk_discount_from [⟨5, 10⟩] 5 / 100) +
          ((1000 : ℚ) * ((5 : ℕ) : ℚ) -
              (1000 : ℚ) * ((5 : ℕ) : ℚ) * (get_bulk_discount_from [⟨5, 10⟩] 5 / 100)) *
            ((List.lookup "laptop" [("laptop", (5 : ℚ))]).getD 0 / 100)) }

/-- The successful quote the end-to-end fixture produces. -/
def qEx5 : Quote :=
  { quote_id := "id1", status := "success", pending_reason := none, gaps := none,
    line_items := [liEx5],
    summary := some (QuoteGenerator.calculate_summary
      ⟨plEx, rulesEx, 10 / 100⟩ [liEx5]) }

/-- A high-scoring candidate covering positions 0–4. -/
def candA : Candidate :=
  { text := "abcde", span := (0, 5), product := "p", score := 95, length := 5 }

/-- A lower-scoring candidate covering positions 3–7 (overlaps `candA`). -/
def candB : Candidate :=
  { text := "defgh", span := (3, 8), product := "p2", score := 80, length := 5 }

/-! ### Theorems -/

/-- C8.  Quote determinism/purity: `generate_quote` depends only on the
event's `email_id`, `extracted_items` and `gaps_identified` (and the
generator's read-only state); two calls on events carrying the same data
yield identical quotes, and the event is never mutated (the embedding is a
pure function of the event value). -/
theorem c8_quote_purity (g : QuoteGenerator) (e1 e2 : ParsedEvent)
    (hid : e1.email_id = e2.email_id)
    (hitems : e1.extracted_items = e2.extracted_items)
    (hgaps : e1.gaps_identified = e2.gaps_identified) :
    g.generate_quote e1 = g.generate_quote e2 := by
  unfold QuoteGenerator.generate_quote
  rw [hid, hitems, hgaps]

/-- Witness for C8: the quote calculator ignores the subject, sender and
timestamp fields on which `evEx` and `evEx2` differ. -/
theorem c8_quote_purity_witness :
    gEx.generate_quote evEx = gEx.generate_quote evEx2 :=
  c8_quote_purity gEx evEx evEx2 rfl rfl rfl

/-- C7.  Quantity parsing precedence: the number words are checked in
descending phrase-length order (the concrete checking order is spelled
out), the first match wins, digits are only a fallback, and the absence of
both yields `none`; in particular `"please send a dozen units"` parses to
12. -/
theorem c7_number_word_precedence :
    sortedNumberWords =
      [("a couple", 2), ("a dozen", 12), ("three", 3), ("seven", 7), ("eight", 8),
       ("dozen", 12), ("four", 4), ("five", 5), ("nine", 9), ("one", 1), ("two", 2),
       ("six", 6), ("ten", 10)] ∧
    parse_quantity "please send a dozen units" = some 12 ∧
    (∀ text : String, (∀ p ∈ sortedNumberWords, hasWordCI p.1 text = false) →
        parse_quantity text = firstStandaloneNat text) ∧
    parse_quantity "please send 15 boxes" = some 15 ∧
    parse_quantity "please advise" = none := by
  refine ⟨by decide, by decide, ?_, by decide, by decide⟩
  intro text hnone
  unfold parse_quantity
  rw [List.find?_eq_none.mpr (fun p hp => by simp [hnone p hp])]

/-- Witness for C7: the fallback clause applied at a concrete window. -/
theorem c7_number_word_precedence_witness :
    parse_quantity "just 3" = firstStandaloneNat "just 3" :=
  c7_number_word_precedence.2.2.1 "just 3" (by decide)

/-- In a `min_quantity`-descending list, the first rule satisfying the
threshold test has the greatest `min_quantity` among all satisfying rules. -/
theorem find_desc_max {quantity : Nat} :
    ∀ (l : List BulkRule), l.Pairwise bulkDescOrder →
      ∀ {r : BulkRule}, l.find? (fun r => decide (r.min_quantity ≤ quantity)) = some r →
        ∀ s ∈ l, s.min_quantity ≤ quantity → s.min_quantity ≤ r.min_quantity := by
  intro l
  induction l with
  | nil => intro _ r hfind; simp at hfind
  | cons x xs ih =>
    intro hpair r hfind s hs hsq
    rw [List.pairwise_cons] at hpair
    by_cases hx : x.min_quantity ≤ quantity
    · rw [List.find?_cons_of_pos _ (by simpa using hx)] at hfind
      cases hfind
      rcases List.mem_cons.mp hs with rfl | hs2
      · exact le_refl _
      · exact hpair.1 s hs2
    · rw [List.find?_cons_of_neg _ (by simpa using hx)] at hfind
      rcases List.mem_cons.mp hs with rfl | hs2
      · exact absurd hsq hx
      · exact ih hpair.2 hfind s hs2 hsq

/-- The sorted-descending `find?` of `_get_bulk_discount` succeeds as soon
as any rule qualifies, and returns a qualifying rule of the original list
of maximal `min_quantity`. -/
theorem get_bulk_discount_from_qualifying (rules : List BulkRule) (quantity : Nat)
    (r0 : BulkRule) (h0 : r0 ∈ rules) (h0q : r0.min_quantity ≤ quantity) :
    ∃ r ∈ rules, get_bulk_discount_from rules quantity = r.discount_percent ∧
      r.min_quantity ≤ quantity ∧
      ∀ s ∈ rules, s.min_quantity ≤ quantity → s.min_quantity ≤ r.min_quantity := by
  have hsome : (List.find? (fun r => decide (r.min_quantity ≤ quantity))
      (List.insertionSort bulkDescOrder rules)).isSome = true := by
    rw [List.find?_isSome]
    exact ⟨r0, (List.mem_insertionSort bulkDescOrder).mpr h0, by simpa using h0q⟩
  obtain ⟨r, hr⟩ := Option.isSome_iff_exists.mp hsome
  refine ⟨r, (List.mem_insertionSort bulkDescOrder).mp (List.mem_of_find?_eq_some hr),
    ?_, by simpa using List.find?_some hr, ?_⟩
  · unfold get_bulk_discount_from
    rw [hr]
  · intro s hs hsq
    exact find_desc_max _ (List.sorted_insertionSort bulkDescOrder rules) hr s
      ((List.mem_insertionSort bulkDescOrder).mpr hs) hsq

/-- When no rule qualifies, `_get_bulk_discount` silently returns 0. -/
theorem get_bulk_discount_from_none (rules : List BulkRule) (quantity : Nat)
    (h : ∀ r ∈ rules, quantity < r.min_quantity) :
    get_bulk_discount_from rules quantity = 0 := by
  unfold get_bulk_discount_from
  rw [List.find?_eq_none.mpr ?_]
  intro r hr
  simp only [decide_eq_true_eq]
  exact not_le_of_lt (h r ((List.mem_insertionSort bulkDescOrder).mp hr))

/-- C4 counterexample: two permutations of a tied bulk-discount list yield
different bulk rates, so the input order is not irrelevant as claimed (a
stable descending sort keeps tied rules in input order). -/
theorem c4_bulk_order_counterexample :
    ([⟨5, 10⟩, ⟨5, 20⟩] : List BulkRule).Perm [⟨5, 20⟩, ⟨5, 10⟩] ∧
    get_bulk_discount_from [⟨5, 10⟩, ⟨5, 20⟩] 5 = 10 ∧
    get_bulk_discount_from [⟨5, 20⟩, ⟨5, 10⟩] 5 = 20 :=
  ⟨List.Perm.swap _ _ _, by decide, by decide⟩

/-- C4 (amended).  Bulk discount selection: the rate is the
`discount_percent` of the first rule in `min_quantity`-descending order
whose threshold is met — i.e. of a qualifying rule of maximal
`min_quantity` — and 0 (not an error) when no rule qualifies; the input
order is irrelevant as long as the `min_quantity` values are pairwise
distinct (ties are resolved by input order, by sort stability). -/
theorem c4_bulk_selection :
    (∀ (rules : List BulkRule) (quantity : Nat),
        (∀ r ∈ rules, quantity < r.min_quantity) →
        get_bulk_discount_from rules quantity = 0) ∧
    (∀ (rules : List BulkRule) (quantity : Nat) (r0 : BulkRule),
        r0 ∈ rules → r0.min_quantity ≤ quantity →
        ∃ r ∈ rules, get_bulk_discount_from rules quantity = r.discount_percent ∧
          r.min_quantity ≤ quantity ∧
          ∀ s ∈ rules, s.min_quantity ≤ quantity → s.min_quantity ≤ r.min_quantity) ∧
    (∀ (rules rules2 : List BulkRule) (quantity : Nat),
        rules.Perm rules2 → (rules.map BulkRule.min_quantity).Nodup →
        get_bulk_discount_from rules quantity = get_bulk_discount_from rules2 quantity) := by
  refine ⟨get_bulk_discount_from_none, get_bulk_discount_from_qualifying, ?_⟩
  intro rules rules2 quantity hperm hnodup
  by_cases hqual : ∃ r0 ∈ rules, r0.min_quantity ≤ quantity
  · obtain ⟨r0, h0, h0q⟩ := hqual
    obtain ⟨r, hr, hr_eq, hrq, hrmax⟩ :=
      get_bulk_discount_from_qualifying rules quantity r0 h0 h0q
    obtain ⟨r2, hr2, hr2_eq, hr2q, hr2max⟩ :=
      get_bulk_discount_from_qualifying rules2 quantity r0 (hperm.mem_iff.mp h0) h0q
    have hr2' : r2 ∈ rules := hperm.mem_iff.mpr hr2
    have hmins : r.min_quantity = r2.min_quantity :=
      le_antisymm (hr2max r (hperm.mem_iff.mp hr) hrq) (hrmax r2 hr2' hr2q)
    have : r = r2 := List.inj_on_of_nodup_map hnodup hr hr2' hmins
    rw [hr_eq, hr2_eq, this]
  · push_neg at hqual
    rw [get_bulk_discount_from_none rules quantity hqual,
      get_bulk_discount_from_none rules2 quantity
        (fun r hr => hqual r (hperm.mem_iff.mpr hr))]

/-- Witness for C4: the no-qualifying-rule branch at a concrete input (the
spec's open question: three units ordered, every rule requires ten). -/
theorem c4_bulk_selection_witness :
    get_bulk_discount_from [⟨10, 50⟩] 3 = 0 :=
  c4_bulk_selection.1 [⟨10, 50⟩] 3 (by decide)

/-- C2.  Sequential discount composition: the line item computed for a
priced item with subtotal `S = unit_price × quantity` carries the bulk
amount `S·b/100`, a category amount computed on the post-bulk total
`(S − S·b/100)·c/100`, their unrounded sum as total discount, and a final
price equal to `S·(1 − b/100)·(1 − c/100)` — the sequential, not
additive, composition; no monetary field of the line item is rounded. -/
theorem c2_sequential_discounts (g : QuoteGenerator) (brules : List BulkRule)
    (crules : List (String × ℚ)) (item : ExtractedItem) (rest : List ExtractedItem)
    (pn : String) (q : Nat) (info : ProductInfo)
    (hb : g.discount_rules.bulk_discount = some brules)
    (hc : g.discount_rules.category_discount = some crules)
    (hpn : item.product_name = some pn)
    (hlook : g.price_list.lookup pn = some info)
    (hq : item.quantity = some q) :
    let S : ℚ := info.price * q
    let b := get_bulk_discount_from brules q
    let c := (crules.lookup info.category).getD 0
    let bulkAmt := S * (b / 100)
    let catAmt := (S - bulkAmt) * (c / 100)
    g.calculate_line_items (item :: rest) =
      (g.calculate_line_items rest).map (List.cons
        { product_name := pn, quantity := q, unit_price := info.price,
          subtotal := S, total_discount_applied := bulkAmt + catAmt,
          final_price := S - (bulkAmt + catAmt) }) ∧
    S - (bulkAmt + catAmt) = S * (1 - b / 100) * (1 - c / 100) := by
  refine ⟨?_, by ring⟩
  simp only [QuoteGenerator.calculate_line_items, hpn, hlook, hq, hb, hc]

/-- Witness for C2: the end-to-end fixture (5 laptops at 1000, bulk 10%,
category 5%) produces the sequential final price. -/
theorem c2_sequential_discounts_witness :
    let S : ℚ := (1000 : ℚ) * ((5 : ℕ) : ℚ)
    let b := get_bulk_discount_from [⟨5, 10⟩] 5
    let c := (List.lookup "laptop" [("laptop", (5 : ℚ))]).getD 0
    let bulkAmt := S * (b / 100)
    let catAmt := (S - bulkAmt) * (c / 100)
    gEx.calculate_line_items [itemEx] =
      (gEx.calculate_line_items []).map (List.cons
        { product_name := "ThinkPad X1", quantity := 5, unit_price := 1000,
          subtotal := S, total_discount_applied := bulkAmt + catAmt,
          final_price := S - (bulkAmt + catAmt) }) ∧
    S - (bulkAmt + catAmt) = S * (1 - b / 100) * (1 - c / 100) :=
  c2_sequential_discounts gEx [⟨5, 10⟩] [("laptop", 5)] itemEx []
    "ThinkPad X1" 5 ⟨1000, "laptop"⟩ rfl rfl rfl rfl rfl

/-- Python truthiness of the quantity field is exactly "a positive
quantity is present". -/
theorem truthyQuantity_iff (o : Option Nat) :
    truthyQuantity o = true ↔ ∃ n, o = some n ∧ 0 < n := by
  cases o with
  | none => simp [truthyQuantity]
  | some n => simp [truthyQuantity, Nat.pos_iff_ne_zero]

/-- For product names that are never the empty string, Python truthiness
of the name field is exactly "non-null". -/
theorem truthyName_iff (o : Option String) (h : o ≠ some "") :
    truthyName o = true ↔ o ≠ none := by
  cases o with
  | none => simp [truthyName]
  | some s =>
    have hs : s ≠ "" := fun hs => h (by rw [hs])
    simp [truthyName, hs]

/-- Unfolding of `_is_quotable` into a propositional characterization. -/
theorem is_quotable_eq_true_iff (items : List ExtractedItem) :
    is_quotable items = true ↔ items ≠ [] ∧ ∀ it ∈ items,
      truthyName it.product_name = true ∧ truthyQuantity it.quantity = true := by
  simp [is_quotable, List.all_eq_true, List.isEmpty_iff]

/-- The boolean gate of `generate_quote` agrees with the spec-worded gate
condition, provided no item carries the (catalog-impossible) empty-string
product name. -/
theorem gate_bool_iff (e : ParsedEvent)
    (hpn : ∀ it ∈ e.extracted_items, it.product_name ≠ some "") :
    (!e.gaps_identified.isEmpty || !is_quotable e.extracted_items) = true ↔
      gate_violation e := by
  unfold gate_violation
  rw [Bool.or_eq_true, Bool.not_eq_true', Bool.not_eq_true']
  constructor
  · rintro (h1 | h2)
    · left
      intro hnil
      rw [hnil] at h1
      exact absurd h1 (by simp)
    · by_cases hemp : e.extracted_items = []
      · exact Or.inr (Or.inl hemp)
      · refine Or.inr (Or.inr ?_)
        have h2' : e.extracted_items.all
            (fun it => truthyName it.product_name && truthyQuantity it.quantity) = false := by
          unfold is_quotable at h2
          rw [Bool.and_eq_false_iff] at h2
          rcases h2 with h2 | h2
          · rw [Bool.not_eq_false', List.isEmpty_iff] at h2
            exact absurd h2 hemp
          · exact h2
        rw [List.all_eq_false] at h2'
        obtain ⟨it, hit, hf⟩ := h2'
        rw [Bool.and_eq_true] at hf
        refine ⟨it, hit, ?_⟩
        by_cases hname : truthyName it.product_name = true
        · have hq : ¬ truthyQuantity it.quantity = true := fun hq => hf ⟨hname, hq⟩
          right
          rw [truthyQuantity_iff] at hq
          exact hq
        · left
          rw [truthyName_iff _ (hpn it hit)] at hname
          push_neg at hname
          exact hname
  · rintro (hgaps | hemp | ⟨it, hit, hbad⟩)
    · left
      cases hg : e.gaps_identified with
      | nil => exact absurd hg hgaps
      | cons x xs => rfl
    · right
      rw [Bool.eq_false_iff, Ne, is_quotable_eq_true_iff]
      rintro ⟨hne, _⟩
      exact hne hemp
    · right
      rw [Bool.eq_false_iff, Ne, is_quotable_eq_true_iff]
      rintro ⟨_, hall⟩
      obtain ⟨hname, hq⟩ := hall it hit
      rcases hbad with hnone | hnopos
      · rw [truthyName_iff _ (hpn it hit)] at hname
        exact hname hnone
      · rw [truthyQuantity_iff] at hq
        exact hnopos hq

/-- When both discount keys are present and every item has a truthy
quantity, `_calculate_line_items` cannot raise. -/
theorem calculate_line_items_ok (g : QuoteGenerator) (brules : List BulkRule)
    (crules : List (String × ℚ))
    (hb : g.discount_rules.bulk_discount = some brules)
    (hc : g.discount_rules.category_discount = some crules) :
    ∀ items : List ExtractedItem,
      (∀ it ∈ items, truthyQuantity it.quantity = true) →
      ∃ lis, g.calculate_line_items items = .ok lis := by
  intro items
  induction items with
  | nil => exact fun _ => ⟨[], rfl⟩
  | cons item rest ih =>
    intro hall
    obtain ⟨tl, htl⟩ := ih (fun it hit => hall it (List.mem_cons_of_mem _ hit))
    cases hpn : item.product_name with
    | none =>
      refine ⟨tl, ?_⟩
      simp only [QuoteGenerator.calculate_line_items, hpn]
      exact htl
    | some pn =>
      cases hlook : g.price_list.lookup pn with
      | none =>
        refine ⟨tl, ?_⟩
        simp only [QuoteGenerator.calculate_line_items, hpn, hlook]
        exact htl
      | some info =>
        have hq := hall item (List.mem_cons_self _ _)
        cases hqq : item.quantity with
        | none => rw [hqq] at hq; simp [truthyQuantity] at hq
        | some n =>
          exact ⟨_, by
            simp only [QuoteGenerator.calculate_line_items, hpn, hlook, hqq, hb, hc,
              htl, Except.map]
            rfl⟩

/-- When every item has a truthy quantity, the only errors
`_calculate_line_items` can raise are the two missing-key `KeyError`s. -/
theorem calculate_line_items_err (g : QuoteGenerator) :
    ∀ (items : List ExtractedItem) (err : String),
      (∀ it ∈ items, truthyQuantity it.quantity = true) →
      g.calculate_line_items items = .error err →
      err = "KeyError: bulk_discount" ∨ err = "KeyError: category_discount" := by
  intro items
  induction items with
  | nil => intro err _ h; exact absurd h (by simp [QuoteGenerator.calculate_line_items])
  | cons item rest ih =>
    intro err hall herr
    have hall' := fun it hit => hall it (List.mem_cons_of_mem _ hit)
    cases hpn : item.product_name with
    | none =>
      simp only [QuoteGenerator.calculate_line_items, hpn] at herr
      exact ih err hall' herr
    | some pn =>
      cases hlook : g.price_list.lookup pn with
      | none =>
        simp only [QuoteGenerator.calculate_line_items, hpn, hlook] at herr
        exact ih err hall' herr
      | some info =>
        have hq := hall item (List.mem_cons_self _ _)
        cases hqq : item.quantity with
        | none => rw [hqq] at hq; simp [truthyQuantity] at hq
        | some n =>
          cases hbk : g.discount_rules.bulk_discount with
          | none =>
            simp only [QuoteGenerator.calculate_line_items, hpn, hlook, hqq, hbk,
              Except.error.injEq] at herr
            exact Or.inl herr.symm
          | some brules =>
            cases hck : g.discount_rules.category_discount with
            | none =>
              simp only [QuoteGenerator.calculate_line_items, hpn, hlook, hqq, hbk, hck,
                Except.error.injEq] at herr
              exact Or.inr herr.symm
            | some crules =>
              simp only [QuoteGenerator.calculate_line_items, hpn, hlook, hqq, hbk, hck] at herr
              cases hrest : g.calculate_line_items rest with
              | error e2 =>
                rw [hrest] at herr
                cases herr
                exact ih err hall' hrest
              | ok tl => rw [hrest] at herr; cases herr

/-- Every line item produced by `_calculate_line_items` from items with
truthy quantities has a non-zero quantity. -/
theorem calculate_line_items_pos (g : QuoteGenerator) :
    ∀ (items : List ExtractedItem) (lis : List LineItem),
      (∀ it ∈ items, truthyQuantity it.quantity = true) →
      g.calculate_line_items items = .ok lis →
      ∀ li ∈ lis, 0 < li.quantity := by
  intro items
  induction items with
  | nil =>
    intro lis _ h li hli
    simp only [QuoteGenerator.calculate_line_items, Except.ok.injEq] at h
    rw [← h] at hli
    cases hli
  | cons item rest ih =>
    intro lis hall hok li hli
    have hall' := fun it hit => hall it (List.mem_cons_of_mem _ hit)
    cases hpn : item.product_name with
    | none =>
      simp only [QuoteGenerator.calculate_line_items, hpn] at hok
      exact ih lis hall' hok li hli
    | some pn =>
      cases hlook : g.price_list.lookup pn with
      | none =>
        simp only [QuoteGenerator.calculate_line_items, hpn, hlook] at hok
        exact ih lis hall' hok li hli
      | some info =>
        have hq := hall item (List.mem_cons_self _ _)
        cases hqq : item.quantity with
        | none => rw [hqq] at hq; simp [truthyQuantity] at hq
        | some n =>
          cases hbk : g.discount_rules.bulk_discount with
          | none =>
            simp only [QuoteGenerator.calculate_line_items, hpn, hlook, hqq, hbk] at hok
            exact Except.noConfusion hok
          | some brules =>
            cases hck : g.discount_rules.category_discount with
            | none =>
              simp only [QuoteGenerator.calculate_line_items, hpn, hlook, hqq, hbk, hck] at hok
              exact Except.noConfusion hok
            | some crules =>
              simp only [QuoteGenerator.calculate_line_items, hpn, hlook, hqq, hbk, hck] at hok
              cases hrest : g.calculate_line_items rest with
              | error e2 => rw [hrest] at hok; cases hok
              | ok tl =>
                rw [hrest] at hok
                cases hok
                rcases List.mem_cons.mp hli with rfl | hli2
                · rw [hqq] at hq
                  simp only [truthyQuantity, bne_iff_ne, ne_eq] at hq
                  exact Nat.pos_of_ne_zero hq
                · exact ih tl hall' hrest li hli2

/-- C1.  Quotability gate: with well-formed rules and catalog-key product
names, `generate_quote` never raises, returns a pending quote exactly when
the event has a gap, no items, or an item lacking a non-null product name
or a positive quantity; the pending quote carries the original gap list,
the fixed pending reason, empty line items and an empty summary; otherwise
the status is `"success"` with the computed line items and summary. -/
theorem c1_quotability_gate (g : QuoteGenerator) (e : ParsedEvent)
    (brules : List BulkRule) (crules : List (String × ℚ))
    (hb : g.discount_rules.bulk_discount = some brules)
    (hc : g.discount_rules.category_discount = some crules)
    (hpn : ∀ it ∈ e.extracted_items, it.product_name ≠ some "") :
    ∃ q, g.generate_quote e = .ok q ∧
      (q.status = "pending" ↔ gate_violation e) ∧
      (gate_violation e →
        q.line_items = [] ∧ q.gaps = some e.gaps_identified ∧
        q.pending_reason = some pendingReasonText ∧ q.summary = none) ∧
      (¬ gate_violation e →
        q.status = "success" ∧ q.gaps = none ∧
        ∃ lis, g.calculate_line_items e.extracted_items = .ok lis ∧
          q.line_items = lis ∧ q.summary = some (g.calculate_summary lis)) := by
  by_cases hgate : gate_violation e
  · have hbool := (gate_bool_iff e hpn).mpr hgate
    refine ⟨⟨e.email_id, "pending", some pendingReasonText, some e.gaps_identified,
      [], none⟩, ?_, ?_, ?_, ?_⟩
    · simp [QuoteGenerator.generate_quote, hbool]
    · exact iff_of_true rfl hgate
    · exact fun _ => ⟨rfl, rfl, rfl, rfl⟩
    · exact fun h => absurd hgate h
  · have hbool : (!e.gaps_identified.isEmpty || !is_quotable e.extracted_items) = false := by
      rw [Bool.eq_false_iff]
      intro h
      exact hgate ((gate_bool_iff e hpn).mp h)
    have hquot : is_quotable e.extracted_items = true := by
      rcases Bool.or_eq_false_iff.mp hbool with ⟨_, h2⟩
      rwa [Bool.not_eq_false'] at h2
    have hallq : ∀ it ∈ e.extracted_items, truthyQuantity it.quantity = true :=
      fun it hit => (((is_quotable_eq_true_iff _).mp hquot).2 it hit).2
    obtain ⟨lis, hlis⟩ := calculate_line_items_ok g brules crules hb hc
      e.extracted_items hallq
    refine ⟨⟨e.email_id, "success", none, none, lis, some (g.calculate_summary lis)⟩,
      ?_, ?_, ?_, ?_⟩
    · simp [QuoteGenerator.generate_quote, hbool, hlis, Except.map]
    · have hne : ¬ ("success" : String) = "pending" := by decide
      exact iff_of_false hne hgate
    · exact fun h => absurd h hgate
    · exact fun _ => ⟨rfl, rfl, lis, hlis, rfl, rfl⟩

/-- Witness for C1: a gap-carrying event routes to the pending shape. -/
theorem c1_quotability_gate_witness :
    ∃ q, gEx.generate_quote evGaps = .ok q ∧
      (q.status = "pending" ↔ gate_violation evGaps) ∧
      (gate_violation evGaps →
        q.line_items = [] ∧ q.gaps = some evGaps.gaps_identified ∧
        q.pending_reason = some pendingReasonText ∧ q.summary = none) ∧
      (¬ gate_violation evGaps →
        q.status = "success" ∧ q.gaps = none ∧
        ∃ lis, gEx.calculate_line_items evGaps.extracted_items = .ok lis ∧
          q.line_items = lis ∧ q.summary = some (gEx.calculate_summary lis)) :=
  c1_quotability_gate gEx evGaps [⟨5, 10⟩] [("laptop", 5)] rfl rfl
    (fun it hit => absurd hit (List.not_mem_nil it))

/-- C3 counterexample: non-empty discount rules missing the `bulk_discount`
top-level key pass construction, and the `KeyError` then surfaces while
quoting a quotable event — a configuration error raised during per-event
quoting, not at construction time. -/
theorem c3_construction_counterexample :
    quoteGeneratorInit plEx rulesNoBulk = .ok gNoBulk ∧
    gNoBulk.generate_quote evEx = .error "KeyError: bulk_discount" :=
  ⟨rfl, rfl⟩

/-- C3 (amended).  Error tiers: construction fails exactly on an empty
price list or empty discount rules; with both discount keys present,
`generate_quote` never raises for any event (per-event uncertainty is
data, not an exception); and when `generate_quote` does raise, the error
is one of the two missing-top-level-key `KeyError`s — raised during the
quoting of a quotable event, not at construction time. -/
theorem c3_error_tiers :
    (∀ (pl : List (String × ProductInfo)) (r : DiscountRules),
        (∃ g, quoteGeneratorInit pl r = .ok g) ↔ (pl ≠ [] ∧ r.isEmptyDict = false)) ∧
    (∀ (g : QuoteGenerator) (e : ParsedEvent),
        g.discount_rules.bulk_discount.isSome = true →
        g.discount_rules.category_discount.isSome = true →
        ∃ q, g.generate_quote e = .ok q) ∧
    (∀ (g : QuoteGenerator) (e : ParsedEvent) (err : String),
        g.generate_quote e = .error err →
        err = "KeyError: bulk_discount" ∨ err = "KeyError: category_discount") := by
  refine ⟨?_, ?_, ?_⟩
  · intro pl r
    unfold quoteGeneratorInit
    by_cases h : (pl.isEmpty || r.isEmptyDict) = true
    · rw [if_pos h]
      constructor
      · rintro ⟨g, hg⟩
        exact Except.noConfusion hg
      · rintro ⟨hne, hempty⟩
        rw [Bool.or_eq_true] at h
        rcases h with h1 | h2
        · exact absurd (List.isEmpty_iff.mp h1) hne
        · rw [h2] at hempty
          cases hempty
    · rw [if_neg h]
      rw [Bool.or_eq_true] at h
      push_neg at h
      refine iff_of_true ⟨_, rfl⟩ ⟨?_, ?_⟩
      · intro hnil
        exact h.1 (by rw [hnil]; rfl)
      · cases hd : r.isEmptyDict with
        | false => rfl
        | true => exact absurd hd h.2
  · intro g e hb hc
    obtain ⟨brules, hb'⟩ := Option.isSome_iff_exists.mp hb
    obtain ⟨crules, hc'⟩ := Option.isSome_iff_exists.mp hc
    cases hcond : (!e.gaps_identified.isEmpty || !is_quotable e.extracted_items) with
    | true => exact ⟨_, by simp [QuoteGenerator.generate_quote, hcond]; rfl⟩
    | false =>
      have hquot : is_quotable e.extracted_items = true := by
        rcases Bool.or_eq_false_iff.mp hcond with ⟨_, h2⟩
        rwa [Bool.not_eq_false'] at h2
      have hallq : ∀ it ∈ e.extracted_items, truthyQuantity it.quantity = true :=
        fun it hit => (((is_quotable_eq_true_iff _).mp hquot).2 it hit).2
      obtain ⟨lis, hlis⟩ := calculate_line_items_ok g brules crules hb' hc'
        e.extracted_items hallq
      exact ⟨_, by simp [QuoteGenerator.generate_quote, hcond, hlis, Except.map]; rfl⟩
  · intro g e err herr
    simp only [QuoteGenerator.generate_quote] at herr
    cases hcond : (!e.gaps_identified.isEmpty || !is_quotable e.extracted_items) with
    | true =>
      rw [hcond, if_pos rfl] at herr
      exact Except.noConfusion herr
    | false =>
      rw [hcond, if_neg (by simp)] at herr
      have hquot : is_quotable e.extracted_items = true := by
        rcases Bool.or_eq_false_iff.mp hcond with ⟨_, h2⟩
        rwa [Bool.not_eq_false'] at h2
      have hallq : ∀ it ∈ e.extracted_items, truthyQuantity it.quantity = true :=
        fun it hit => (((is_quotable_eq_true_iff _).mp hquot).2 it hit).2
      cases hcalc : g.calculate_line_items e.extracted_items with
      | error e2 =>
        rw [hcalc] at herr
        simp only [Except.map, Except.error.injEq] at herr
        rw [← herr]
        exact calculate_line_items_err g e.extracted_items e2 hallq hcalc
      | ok lis =>
        rw [hcalc] at herr
        exact Except.noConfusion herr

/-- Witness for C3: with both discount keys present, quoting the
gap-carrying event succeeds (returns a value, no exception). -/
theorem c3_error_tiers_witness :
    ∃ q, gEx.generate_quote evGaps = .ok q :=
  c3_error_tiers.2.1 gEx evGaps rfl rfl

/-- The used-index test of the greedy loop is exactly span/used-set
intersection. -/
theorem overlapsUsed_iff (sp : Nat × Nat) (used : List Nat) :
    overlapsUsed sp used = true ↔ ∃ i, i ∈ spanIndices sp ∧ i ∈ used := by
  simp [overlapsUsed, List.any_eq_true, List.elem_iff]

/-- Invariant of the greedy acceptance loop: if the used set is exactly the
union of the accepted spans and the accepted candidates are pairwise
non-overlapping, the final output is pairwise non-overlapping. -/
theorem resolveGo_pairwise :
    ∀ (l acc : List Candidate) (used : List Nat),
      (∀ i, i ∈ used ↔ ∃ c ∈ acc, i ∈ spanIndices c.span) →
      List.Pairwise (fun a b => ¬ overlapProp a b) acc →
      List.Pairwise (fun a b => ¬ overlapProp a b) (resolveGo l acc used) := by
  intro l
  induction l with
  | nil =>
    intro acc used _ hpair
    simp only [resolveGo]
    rw [List.pairwise_reverse]
    exact hpair.imp (fun {a b} hnab ⟨i, hib, hia⟩ => hnab ⟨i, hia, hib⟩)
  | cons c cs ih =>
    intro acc used hinv hpair
    by_cases ho : overlapsUsed c.span used = true
    · simp only [resolveGo, ho, if_true]
      exact ih acc used hinv hpair
    · have hof : overlapsUsed c.span used = false := Bool.eq_false_iff.mpr ho
      simp only [resolveGo, hof, Bool.false_eq_true, if_false]
      refine ih (c :: acc) (used ++ spanIndices c.span) ?_ ?_
      · intro i
        rw [List.mem_append, hinv i]
        constructor
        · rintro (⟨c', hc', hi⟩ | hi)
          · exact ⟨c', List.mem_cons_of_mem _ hc', hi⟩
          · exact ⟨c, List.mem_cons_self _ _, hi⟩
        · rintro ⟨c', hc', hi⟩
          rcases List.mem_cons.mp hc' with rfl | hc2
          · exact Or.inr hi
          · exact Or.inl ⟨c', hc2, hi⟩
      · rw [List.pairwise_cons]
        refine ⟨?_, hpair⟩
        rintro a ha ⟨i, hic, hia⟩
        exact ho ((overlapsUsed_iff _ _).mpr ⟨i, hic, (hinv i).mpr ⟨a, ha, hia⟩⟩)

/-- The greedy loop on two overlapping candidates (higher-priority first)
keeps only the first. -/
theorem resolveGo_pair (c1 c2 : Candidate) (h : overlapProp c1 c2) :
    resolveGo [c1, c2] [] [] = [c1] := by
  obtain ⟨i, hi1, hi2⟩ := h
  have h1 : overlapsUsed c1.span [] = false := by
    simp [overlapsUsed]
  have h2 : overlapsUsed c2.span (spanIndices c1.span) = true :=
    (overlapsUsed_iff _ _).mpr ⟨i, hi2, hi1⟩
  simp only [resolveGo, h1, Bool.false_eq_true, if_false, List.reverse_cons,
    List.reverse_nil, List.nil_append]
  rw [if_pos h2]

/-- C6.  Greedy overlap resolution: every kept candidate scores ≥ 75; the
final match list is pairwise non-overlapping (a candidate is accepted only
when no position of its span is already claimed); of two overlapping
candidates with scores 95 and 80, only the 95-scoring one survives — in
either input order, since the sort orders by score descending; and equal
scores are tied by longer matched text. -/
theorem c6_overlap_resolution :
    (∀ (scorer : String → String → Nat) (names : List String) (ngrams : List Ngram)
        (c : Candidate), c ∈ scoredMatches scorer names ngrams → 75 ≤ c.score) ∧
    (∀ cands : List Candidate,
        List.Pairwise (fun a b => ¬ overlapProp a b) (resolveOverlaps cands)) ∧
    (∀ c1 c2 : Candidate, c1.score = 95 → c2.score = 80 → overlapProp c1 c2 →
        resolveOverlaps [c1, c2] = [c1] ∧ resolveOverlaps [c2, c1] = [c1]) ∧
    (∀ c1 c2 : Candidate, c1.score = c2.score → c2.length < c1.length →
        overlapProp c1 c2 → resolveOverlaps [c2, c1] = [c1]) := by
  refine ⟨?_, ?_, ?_, ?_⟩
  · intro scorer names ngrams c hc
    obtain ⟨ng, hng, hf⟩ := List.mem_filterMap.mp hc
    by_cases h4 : ng.text.length < 4
    · rw [if_pos h4] at hf
      cases hf
    · rw [if_neg h4] at hf
      cases hex : extractOne scorer ng.text names with
      | none => rw [hex] at hf; cases hf
      | some pr =>
        obtain ⟨m, s⟩ := pr
        rw [hex] at hf
        by_cases hs : 75 ≤ s
        · simp only [if_pos hs] at hf
          cases hf
          exact hs
        · simp only [if_neg hs] at hf
          cases hf
  · intro cands
    exact resolveGo_pairwise _ [] [] (by simp) List.Pairwise.nil
  · intro c1 c2 h1 h2 hov
    have hord : candOrder c1 c2 := Or.inl (by rw [h1, h2]; norm_num)
    have hnord : ¬ candOrder c2 c1 := by
      unfold candOrder
      rw [h1, h2]
      rintro (h | ⟨h, _⟩) <;> omega
    constructor
    · have hsort : List.insertionSort candOrder [c1, c2] = [c1, c2] := by
        simp [List.insertionSort, List.orderedInsert, if_pos hord]
      rw [resolveOverlaps, hsort]
      exact resolveGo_pair c1 c2 hov
    · have hsort : List.insertionSort candOrder [c2, c1] = [c1, c2] := by
        simp [List.insertionSort, List.orderedInsert, if_neg hnord]
      rw [resolveOverlaps, hsort]
      exact resolveGo_pair c1 c2 hov
  · intro c1 c2 hs hl hov
    have hnord : ¬ candOrder c2 c1 := by
      unfold candOrder
      rintro (h | ⟨_, h⟩) <;> omega
    have hsort : List.insertionSort candOrder [c2, c1] = [c1, c2] := by
      simp [List.insertionSort, List.orderedInsert, if_neg hnord]
    rw [resolveOverlaps, hsort]
    exact resolveGo_pair c1 c2 hov

/-- Witness for C6: the 95-vs-80 overlapping pair at concrete spans. -/
theorem c6_overlap_resolution_witness :
    resolveOverlaps [candA, candB] = [candA] :=
  (c6_overlap_resolution.2.2.1 candA candB rfl rfl ⟨3, by decide, by decide⟩).1

/-- The best-choice fold of `extractOne` returns a choice together with
its own score. -/
theorem extractOne_fold_spec (scorer : String → String → Nat) (q : String) :
    ∀ (l : List String) (init : String × Nat), init.2 = scorer q init.1 →
      (l.foldl (fun best x => if scorer q x > best.2 then (x, scorer q x) else best) init).2 =
        scorer q
          ((l.foldl (fun best x => if scorer q x > best.2 then (x, scorer q x) else best) init).1) ∧
      ((l.foldl (fun best x => if scorer q x > best.2 then (x, scorer q x) else best) init).1 = init.1 ∨
        (l.foldl (fun best x => if scorer q x > best.2 then (x, scorer q x) else best) init).1 ∈ l) := by
  intro l
  induction l with
  | nil => exact fun init h => ⟨h, Or.inl rfl⟩
  | cons x xs ih =>
    intro init hinit
    rw [List.foldl_cons]
    by_cases hgt : scorer q x > init.2
    · rw [if_pos hgt]
      obtain ⟨h1, h2⟩ := ih (x, scorer q x) rfl
      refine ⟨h1, Or.inr ?_⟩
      rcases h2 with h2 | h2
      · rw [h2]; exact List.mem_cons_self _ _
      · exact List.mem_cons_of_mem _ h2
    · rw [if_neg hgt]
      obtain ⟨h1, h2⟩ := ih init hinit
      refine ⟨h1, ?_⟩
      rcases h2 with h2 | h2
      · exact Or.inl h2
      · exact Or.inr (List.mem_cons_of_mem _ h2)

/-- `extractOne` returns a member of the choice list with its score. -/
theorem extractOne_mem_score (scorer : String → String → Nat) (q : String)
    (names : List String) (m : String) (s : Nat)
    (h : extractOne scorer q names = some (m, s)) :
    m ∈ names ∧ s = scorer q m := by
  cases names with
  | nil => cases h
  | cons c cs =>
    unfold extractOne at h
    rw [Option.some.injEq] at h
    obtain ⟨h1, h2⟩ := extractOne_fold_spec scorer q cs (c, scorer q c) rfl
    rw [h] at h1 h2
    have hsm : s = scorer q m := h1
    refine ⟨?_, hsm⟩
    rcases h2 with h2 | h2
    · have hmc : m = c := h2
      rw [hmc]
      exact List.mem_cons_self _ _
    · have hmcs : m ∈ cs := h2
      exact List.mem_cons_of_mem _ hmcs

/-- When nothing scores at or above the medium-confidence threshold, the
scoring loop keeps no candidate. -/
theorem scoredMatches_eq_nil (scorer : String → String → Nat) (names : List String)
    (ngrams : List Ngram)
    (hlow : ∀ ng ∈ ngrams, 4 ≤ ng.text.length → ∀ p ∈ names, scorer ng.text p < 75) :
    scoredMatches scorer names ngrams = [] := by
  rw [scoredMatches, List.filterMap_eq_nil_iff]
  intro ng hng
  by_cases h4 : ng.text.length < 4
  · rw [if_pos h4]
  · rw [if_neg h4]
    cases hex : extractOne scorer ng.text names with
    | none => rfl
    | some pr =>
      obtain ⟨m, s⟩ := pr
      obtain ⟨hm, hs⟩ := extractOne_mem_score scorer ng.text names m s hex
      have hlt : s < 75 := by
        rw [hs]
        exact hlow ng hng (Nat.le_of_not_lt h4) m hm
      have hns : ¬ 75 ≤ s := by omega
      simp only [if_neg hns]

/-- When nothing scores at or above the threshold, `extract_items`
produces no items and exactly the generic unknown-product gap. -/
theorem extract_items_no_match (scorer : String → String → Nat) (names : List String)
    (body : String)
    (hlow : ∀ ng ∈ ngramsOf body (max_words names + 1), 4 ≤ ng.text.length →
        ∀ p ∈ names, scorer ng.text p < 75) :
    extract_items scorer names body = ([], [unknownProductGap]) := by
  simp only [extract_items]
  rw [scoredMatches_eq_nil scorer names _ hlow]
  rfl

/-- C5.  Extraction totality and the unknown-product fallback: with a
non-empty catalog the parser is a total function producing a `ParsedEvent`
for every input string, and whenever no n-gram of the cleaned body scores
≥ 75 against any catalog product, the event has zero extracted items and
exactly one gap, of type `UNKNOWN_PRODUCT`. -/
theorem c5_extraction_totality (price_list : List (String × ProductInfo))
    (names : List String) (scorer : String → String → Nat)
    (hash : String → String) (now content : String)
    (hinit : emailParserInit price_list = .ok names)
    (hlow : ∀ ng ∈ ngramsOf (clean_email_body (bodyAfterHeaders content))
        (max_words names + 1), 4 ≤ ng.text.length → ∀ p ∈ names, scorer ng.text p < 75) :
    (parse_email names scorer hash now content).extracted_items = [] ∧
    (parse_email names scorer hash now content).gaps_identified = [unknownProductGap] ∧
    unknownProductGap.type = "UNKNOWN_PRODUCT" ∧
    (parse_email names scorer hash now content).email_id = hash content ∧
    price_list ≠ [] := by
  have hx := extract_items_no_match scorer names
    (clean_email_body (bodyAfterHeaders content)) hlow
  refine ⟨?_, ?_, rfl, ?_, ?_⟩
  · simp only [parse_email]
    rw [hx]
  · simp only [parse_email]
    rw [hx]
  · simp only [parse_email]
  · intro hnil
    rw [hnil] at hinit
    cases hinit

/-- Witness for C5: a body mentioning nothing catalog-like yields the
single generic gap. -/
theorem c5_extraction_totality_witness :
    (parse_email ["ThinkPad X1"] scorer0 (fun _ => "h") "t" "random note").extracted_items = [] ∧
    (parse_email ["ThinkPad X1"] scorer0 (fun _ => "h") "t" "random note").gaps_identified =
      [unknownProductGap] ∧
    unknownProductGap.type = "UNKNOWN_PRODUCT" ∧
    (parse_email ["ThinkPad X1"] scorer0 (fun _ => "h") "t" "random note").email_id =
      (fun _ => "h") "random note" ∧
    plEx ≠ [] :=
  c5_extraction_totality plEx ["ThinkPad X1"] scorer0 (fun _ => "h") "t" "random note"
    rfl (by decide)

/-- The overwrite-on-match fold of the signature scan computes the last
qualifying line, falling back to the accumulator. -/
theorem signatureScan_fold_eq :
    ∀ (lines : List (List Char)) (acc : Option String),
      lines.foldl (fun acc l =>
        let potential := stripNoise l
        if sigQualifies potential then some ⟨potential⟩ else acc) acc =
      (match (lines.filterMap sigCandidate).getLast? with
       | some x => some x
       | none => acc) := by
  intro lines
  induction lines with
  | nil => intro acc; rfl
  | cons l ls ih =>
    intro acc
    rw [List.foldl_cons, ih, List.filterMap_cons]
    cases hc : sigCandidate l with
    | none =>
      have hq : sigQualifies (stripNoise l) = false := by
        unfold sigCandidate at hc
        by_cases h : sigQualifies (stripNoise l) = true
        · rw [if_pos h] at hc; cases hc
        · exact Bool.eq_false_iff.mpr h
      simp only [hq, Bool.false_eq_true, if_false]
    | some s =>
      have hq : sigQualifies (stripNoise l) = true := by
        unfold sigCandidate at hc
        by_cases h : sigQualifies (stripNoise l) = true
        · exact h
        · rw [if_neg h] at hc; cases hc
      have hs : s = ⟨stripNoise l⟩ := by
        unfold sigCandidate at hc
        rw [if_pos hq] at hc
        cases hc
        rfl
      simp only [hq, if_true]
      cases hrest : ls.filterMap sigCandidate with
      | nil =>
        rw [List.getLast?_singleton, hs]
        rfl
      | cons y ys =>
        rw [List.getLast?_cons_cons]
        have : (y :: ys).getLast?.isSome = true :=
          List.getLast?_isSome.mpr (by simp)
        obtain ⟨z, hz⟩ := Option.isSome_iff_exists.mp this
        rw [hz]

/-- The signature scan keeps the last qualifying line. -/
theorem signatureScan_eq (lines : List (List Char)) :
    signatureScan lines = (lines.filterMap sigCandidate).getLast? := by
  rw [signatureScan, signatureScan_fold_eq lines none]
  cases (lines.filterMap sigCandidate).getLast? <;> rfl

/-- C9.  Last-match sender-name policy: whenever the `From:` header yields
no (truthy) name, the sender name adopted by `parse_sender` is exactly the
last qualifying line of the signature block (1–2 words, none of `@<>`,
after trimming commas/hyphens/spaces), i.e. the scan overwrites on each
match rather than stopping at the first. -/
theorem c9_last_signature_line (content : String)
    (hheader : headerGivesName content = false) :
    (parse_sender content).name =
      ((sigLinesOf content).filterMap sigCandidate).getLast? := by
  rw [← signatureScan_eq]
  unfold parse_sender
  unfold headerGivesName at hheader
  cases hfm : fromHeaderAux true content.data with
  | none => simp only [hfm, signatureName]
  | some fm =>
    cases fm with
    | nameEmail n e =>
      rw [hfm] at hheader
      have hn : (n != "") = false := hheader
      simp only [hfm, hn, Bool.false_eq_true, if_false, signatureName]
    | emailOnly e => simp only [hfm, signatureName]

/-- Witness for C9: two qualifying signature lines; the later one wins. -/
theorem c9_last_signature_line_witness :
    (parse_sender content9).name = some "Jane Roe" :=
  (c9_last_signature_line content9 rfl).trans (by decide)

/-- C10.  Implicit zero-quantity edge: `parse_quantity` can return 0 (a
window whose first standalone digit run is `"0"` and which contains no
number word), a value outside "optional positive int"; every downstream
consumer treats 0 like a missing quantity — `extract_items` on the body
`"0 widgets"` yields an item with `quantity = 0`, `confidence.quantity =
0.0` and a `MISSING_QUANTITY` gap for the high-confidence match; the quote
gate routes such an event to pending; and no line item of any quote ever
carries quantity 0. -/
theorem c10_zero_quantity :
    parse_quantity "0" = some 0 ∧
    extract_items scorerEq ["widgets"] "0 widgets" = ([item10], [gap10]) ∧
    item10.quantity = some 0 ∧
    item10.confidence.quantity = 0 ∧
    gap10.type = "MISSING_QUANTITY" ∧
    (∀ (g : QuoteGenerator) (e : ParsedEvent) (q : Quote),
        g.generate_quote e = .ok q → ∀ li ∈ q.line_items, 0 < li.quantity) ∧
    gEx.generate_quote ev10 =
      .ok ⟨ev10.email_id, "pending", some pendingReasonText,
        some ev10.gaps_identified, [], none⟩ := by
  refine ⟨by decide, by rfl, rfl, rfl, rfl, ?_, by rfl⟩
  intro g e q hq li hli
  simp only [QuoteGenerator.generate_quote] at hq
  cases hcond : (!e.gaps_identified.isEmpty || !is_quotable e.extracted_items) with
  | true =>
    rw [hcond, if_pos rfl] at hq
    rw [Except.ok.injEq] at hq
    rw [← hq] at hli
    cases hli
  | false =>
    rw [hcond, if_neg (by simp)] at hq
    have hquot : is_quotable e.extracted_items = true := by
      rcases Bool.or_eq_false_iff.mp hcond with ⟨_, h2⟩
      rwa [Bool.not_eq_false'] at h2
    have hallq : ∀ it ∈ e.extracted_items, truthyQuantity it.quantity = true :=
      fun it hit => (((is_quotable_eq_true_iff _).mp hquot).2 it hit).2
    cases hcalc : g.calculate_line_items e.extracted_items with
    | error e2 =>
      rw [hcalc] at hq
      exact Except.noConfusion hq
    | ok lis =>
      rw [hcalc] at hq
      simp only [Except.map, Except.ok.injEq] at hq
      have hlis : li ∈ lis := by
        rw [← hq] at hli
        exact hli
      exact calculate_line_items_pos g e.extracted_items lis hallq hcalc li hlis

/-- Witness for C10: the successful end-to-end quote's only line item has
a positive quantity. -/
theorem c10_zero_quantity_witness : 0 < liEx5.quantity :=
  c10_zero_quantity.2.2.2.2.2.1 gEx evEx qEx5 (by rfl) liEx5
    (List.mem_singleton.mpr rfl)
